import Mathlib

/-!
Shallow embedding of the user-CRUD core of the pipeline-of-pipelines-arch
repository: the `models` package (User and its transfer objects), the
`pkg/errors` package (AppError taxonomy), the repository interface with its
in-memory implementation (`internal/repository/user_repo.go`), the user
service (`internal/services/user_service.go`), and the mock HTTP handler
`api.Handlers.GetUser`.

Go `string` is `String`, Go `int` is `Int` (every division below happens
with a non-negative numerator and positive divisor, where Lean's `Int`
division agrees with Go's), `time.Time` is a `Nat` tick.  The
non-deterministic inputs `uuid.New()` and `time.Now()` are passed as
explicit parameters.  The in-memory repository's Go map
`map[string]*models.User` is an association list from key to `User`; Go map
insertion replaces the value at an existing key and otherwise adds the
binding, deletion removes the key, and `len` counts the bindings.
-/

/-- Embeds `models.User` (internal/models/user.go): the sole domain entity. -/
structure User where
  ID : String
  Email : String
  Name : String
  Role : String
  Active : Bool
  CreatedAt : Nat
  UpdatedAt : Nat
deriving Repr, DecidableEq

/-- Embeds `models.UserCreateRequest`: email, name, role, all required. -/
structure UserCreateRequest where
  Email : String
  Name : String
  Role : String
deriving Repr, DecidableEq

/-- Embeds `models.UserUpdateRequest`: all fields optional (Go pointer fields;
`none` is a nil pointer, i.e. the field is absent from the request). -/
structure UserUpdateRequest where
  Email : Option String
  Name : Option String
  Role : Option String
  Active : Option Bool
deriving Repr, DecidableEq

/-- Embeds `models.UserResponse`: the API view of a user. -/
structure UserResponse where
  ID : String
  Email : String
  Name : String
  Role : String
  Active : Bool
  CreatedAt : Nat
  UpdatedAt : Nat
deriving Repr, DecidableEq

/-- Embeds `models.NewUser(email, name, role)`: stamps a generated id and
`now := time.Now().UTC()` into both timestamps, with `Active: true`.
The generated uuid and the clock reading are the parameters `newId`/`now`. -/
def NewUser (email name role : String) (newId : String) (now : Nat) : User :=
  { ID := newId
    Email := email
    Name := name
    Role := role
    Active := true
    CreatedAt := now
    UpdatedAt := now }

/-- Embeds `(*models.User).ToResponse()`: field-for-field copy into the view. -/
def User.ToResponse (u : User) : UserResponse :=
  { ID := u.ID
    Email := u.Email
    Name := u.Name
    Role := u.Role
    Active := u.Active
    CreatedAt := u.CreatedAt
    UpdatedAt := u.UpdatedAt }

/-- Embeds `models.UserListResponse`: one page of users plus pagination metadata.
Go `int` fields are `Int`; `Total` comes from `Count()` (a length, hence
also `Int` here to mirror the Go type). -/
structure UserListResponse where
  Users : List UserResponse
  Total : Int
  Page : Int
  PageSize : Int
  TotalPages : Int
deriving Repr, DecidableEq

/-- Embeds `errors.AppError` (pkg/errors/errors.go): code, message, optional
detail, optional wrapped cause (`Internal`, modelled by the wrapped error
text).  The runtime-only `StackTrace` field is omitted. -/
structure AppError where
  Code : Nat
  Message : String
  Detail : String
  Internal : Option String
deriving Repr, DecidableEq

/-- Embeds `errors.ErrInternalServer`: the fixed generic internal error. -/
def ErrInternalServer : AppError :=
  { Code := 500, Message := "An unexpected error occurred", Detail := "", Internal := none }

/-- Embeds `errors.NewAppError(code, message, detail, internal)`. -/
def NewAppError (code : Nat) (message detail : String) (internal : Option String) : AppError :=
  { Code := code, Message := message, Detail := detail, Internal := internal }

/-- Embeds `errors.NotFoundError(resource, id)`. -/
def NotFoundError (resource id : String) : AppError :=
  { Code := 404
    Message := resource ++ " not found"
    Detail := "ID: " ++ id
    Internal := none }

/-- Embeds `repository.UserRepository`: the storage interface the service is
programmed against.  `σ` is the store's state; read operations return
`Except` over the repository error text, write operations additionally
return the post-state (in Go the store is mutated in place, so a failing
write still leaves some state behind). -/
structure UserRepository (σ : Type) where
  Create : σ → User → Except String Unit × σ
  GetByID : σ → String → Except String (Option User)
  GetByEmail : σ → String → Except String (Option User)
  Update : σ → User → Except String Unit × σ
  Delete : σ → String → Except String Unit × σ
  List : σ → Int → Int → Except String (List User)
  Count : σ → Except String Int

/-- State of `repository.InMemoryUserRepository`: the backing
`map[string]*models.User` as an association list (keys are unique map
keys). -/
abbrev MemState := List (String × User)

/-- Go map assignment `r.users[k] = u`: replace the binding when the key is
present, otherwise add it. -/
def memInsert (s : MemState) (k : String) (u : User) : MemState :=
  if s.any (fun p => p.1 == k) then
    s.map (fun p => if p.1 == k then (k, u) else p)
  else
    s ++ [(k, u)]

/-- Go map lookup `r.users[k]`. -/
def memGet (s : MemState) (k : String) : Option User :=
  (s.find? (fun p => p.1 == k)).map (fun p => p.2)

/-- Embeds `InMemoryUserRepository.GetByEmail`: linear scan for a matching email. -/
def memGetByEmail (s : MemState) (email : String) : Option User :=
  (s.find? (fun p => p.2.Email == email)).map (fun p => p.2)

/-- Go map deletion `delete(r.users, k)`. -/
def memDelete (s : MemState) (k : String) : MemState :=
  s.filter (fun p => p.1 != k)

/-- The loop of `InMemoryUserRepository.List`: walk the stored users,
skip while `count < offset`, then collect until `len(users) >= limit`
(checked after each append, as in the source). -/
def memListLoop (limit offset : Int) : List User → Int → List User → List User
  | [], _, acc => acc.reverse
  | u :: rest, count, acc =>
    if offset ≤ count then
      let acc2 := u :: acc
      if limit ≤ (acc2.length : Int) then acc2.reverse
      else memListLoop limit offset rest (count + 1) acc2
    else memListLoop limit offset rest (count + 1) acc

/-- Embeds `InMemoryUserRepository.List(limit, offset)`. -/
def memList (s : MemState) (limit offset : Int) : List User :=
  memListLoop limit offset (s.map (fun p => p.2)) 0 []

/-- Embeds `repository.InMemoryUserRepository`: every operation succeeds;
`Create` and `Update` are both plain map assignments keyed by `user.ID`,
`Count` is `len(r.users)`. -/
def InMemoryUserRepository : UserRepository MemState :=
  { Create := fun s u => (Except.ok (), memInsert s u.ID u)
    GetByID := fun s id => Except.ok (memGet s id)
    GetByEmail := fun s email => Except.ok (memGetByEmail s email)
    Update := fun s u => (Except.ok (), memInsert s u.ID u)
    Delete := fun s id => (Except.ok (), memDelete s id)
    List := fun s limit offset => Except.ok (memList s limit offset)
    Count := fun s => Except.ok (s.length : Int) }

namespace UserService

variable {σ : Type}

/-- Embeds `UserService.CreateUser` (internal/services/user_service.go 31-63):
conflict when `GetByEmail` finds an existing record, otherwise builds
`models.NewUser` and persists it; any repository error becomes
`ErrInternalServer`.  Returns the operation result paired with the
repository state after the call. -/
def CreateUser (R : UserRepository σ) (s : σ) (req : UserCreateRequest)
    (newId : String) (now : Nat) : Except AppError UserResponse × σ :=
  match R.GetByEmail s req.Email with
  | Except.error _ => (Except.error ErrInternalServer, s)
  | Except.ok (some _) =>
      (Except.error
        (NewAppError 409 "User with this email already exists" req.Email none), s)
  | Except.ok none =>
      let user := NewUser req.Email req.Name req.Role newId now
      match R.Create s user with
      | (Except.error _, s2) => (Except.error ErrInternalServer, s2)
      | (Except.ok _, s2) => (Except.ok user.ToResponse, s2)

/-- Embeds `UserService.GetUser` (user_service.go 66-80): not-found translation. -/
def GetUser (R : UserRepository σ) (s : σ) (id : String) :
    Except AppError UserResponse × σ :=
  match R.GetByID s id with
  | Except.error _ => (Except.error ErrInternalServer, s)
  | Except.ok none => (Except.error (NotFoundError "User" id), s)
  | Except.ok (some user) => (Except.ok user.ToResponse, s)

/-- Embeds `UserService.ListUsers` (user_service.go 83-122): clamp page/pageSize,
query `List(pageSize, offset)` and `Count()`, compute
`totalPages = (total + pageSize - 1) / pageSize` (Go integer division;
`total ≥ 0` and `pageSize ≥ 1` on every reachable call, where `Int`
division agrees with Go's). -/
def ListUsers (R : UserRepository σ) (s : σ) (page pageSize : Int) :
    Except AppError UserListResponse × σ :=
  let page := if page < 1 then 1 else page
  let pageSize := if pageSize < 1 ∨ pageSize > 100 then 10 else pageSize
  let offset := (page - 1) * pageSize
  match R.List s pageSize offset with
  | Except.error _ => (Except.error ErrInternalServer, s)
  | Except.ok users =>
    match R.Count s with
    | Except.error _ => (Except.error ErrInternalServer, s)
    | Except.ok total =>
      let totalPages := (total + pageSize - 1) / pageSize
      (Except.ok
        { Users := users.map User.ToResponse
          Total := total
          Page := page
          PageSize := pageSize
          TotalPages := totalPages }, s)

/-- The tail of `UserService.UpdateUser` after the email branch: apply the
remaining present fields to `user` and persist via `Update`. -/
def UpdateUserRest (R : UserRepository σ) (s : σ) (req : UserUpdateRequest)
    (user : User) : Except AppError UserResponse × σ :=
  let user := match req.Name with
    | some n => { user with Name := n }
    | none => user
  let user := match req.Role with
    | some r => { user with Role := r }
    | none => user
  let user := match req.Active with
    | some a => { user with Active := a }
    | none => user
  match R.Update s user with
  | (Except.error _, s2) => (Except.error ErrInternalServer, s2)
  | (Except.ok _, s2) => (Except.ok user.ToResponse, s2)

/-- Embeds `UserService.UpdateUser` (user_service.go 125-174): load the record
(not-found when absent); when the request carries an email, re-check
uniqueness via `GetByEmail` excluding a self-match, then apply the present
fields and persist. -/
def UpdateUser (R : UserRepository σ) (s : σ) (id : String)
    (req : UserUpdateRequest) : Except AppError UserResponse × σ :=
  match R.GetByID s id with
  | Except.error _ => (Except.error ErrInternalServer, s)
  | Except.ok none => (Except.error (NotFoundError "User" id), s)
  | Except.ok (some user) =>
    match req.Email with
    | none => UpdateUserRest R s req user
    | some email =>
      match R.GetByEmail s email with
      | Except.error _ => (Except.error ErrInternalServer, s)
      | Except.ok existing =>
        if (existing.map (fun ex => ex.ID != id)).getD false then
          (Except.error (NewAppError 409 "Email is already in use" email none), s)
        else
          UpdateUserRest R s req { user with Email := email }

/-- Embeds `UserService.DeleteUser` (user_service.go 177-198): not-found when
absent, else delete. -/
def DeleteUser (R : UserRepository σ) (s : σ) (id : String) :
    Except AppError Unit × σ :=
  match R.GetByID s id with
  | Except.error _ => (Except.error ErrInternalServer, s)
  | Except.ok none => (Except.error (NotFoundError "User" id), s)
  | Except.ok (some _) =>
    match R.Delete s id with
    | (Except.error _, s2) => (Except.error ErrInternalServer, s2)
    | (Except.ok _, s2) => (Except.ok (), s2)

end UserService

namespace Handlers

/-- Embeds `api.Handlers.GetUser`: the HTTP handler wired to
`GET /api/v1/users/{id}` in `setupRouter` (cmd/server/main.go).  It holds
no repository or service; it answers with `writeJSON(w, http.StatusOK, user)`
for a hard-coded mock user whose `ID` is the path parameter (the mock's
timestamp fields are left at Go's zero value).  The result is the HTTP
status paired with the JSON body. -/
def GetUser (id : String) : Nat × UserResponse :=
  (200,
    { ID := id
      Email := "user@example.com"
      Name := "Test User"
      Role := "user"
      Active := true
      CreatedAt := 0
      UpdatedAt := 0 })

end Handlers

/-- Map-key/record agreement of the in-memory store: every binding's value
carries the key as its `ID` (in Go, `r.users[user.ID] = user` establishes
this by construction). -/
def KeyMatches (s : MemState) : Prop := ∀ p ∈ s, p.2.ID = p.1

instance : DecidablePred KeyMatches := fun s =>
  inferInstanceAs (Decidable (∀ p ∈ s, p.2.ID = p.1))

/-- Email uniqueness across the stored records, the invariant the service
layer maintains by its lookup-before-write checks. -/
def EmailsNodup (s : MemState) : Prop :=
  s.Pairwise (fun p q => p.2.Email ≠ q.2.Email)

instance : DecidablePred EmailsNodup := fun s => by
  unfold EmailsNodup
  infer_instance

theorem memGet_eq_some_mem {s : MemState} {k : String} {u : User}
    (h : memGet s k = some u) : (k, u) ∈ s := by
  unfold memGet at h
  rcases Option.map_eq_some'.mp h with ⟨p, hfind, hval⟩
  have hp := List.find?_some hfind
  have hmem := List.mem_of_find?_eq_some hfind
  obtain ⟨a, b⟩ := p
  have hk : a = k := by simpa using hp
  simp only at hval
  subst hk
  subst hval
  exact hmem

theorem memGet_memInsert_self (s : MemState) (k : String) (u : User) :
    memGet (memInsert s k u) k = some u := by
  unfold memInsert
  split
  case isTrue h =>
    unfold memGet
    induction s with
    | nil => simp at h
    | cons p rest ih =>
      simp only [List.any_cons, Bool.or_eq_true] at h
      simp only [List.map_cons]
      by_cases hp : (p.1 == k) = true
      · rw [if_pos hp, List.find?_cons_of_pos _ (by simp)]
        rfl
      · rw [if_neg hp, List.find?_cons_of_neg _ (by exact hp)]
        exact ih (h.resolve_left hp)
  case isFalse h =>
    unfold memGet
    induction s with
    | nil => simp
    | cons p rest ih =>
      simp only [List.any_cons, Bool.or_eq_true, not_or] at h
      rw [List.cons_append, List.find?_cons_of_neg _ (by exact h.1)]
      exact ih (by simp [h.2])

theorem memGet_memDelete_self (s : MemState) (k : String) :
    memGet (memDelete s k) k = none := by
  unfold memGet memDelete
  rw [List.find?_eq_none.mpr]
  · rfl
  · intro p hps
    have := (List.mem_filter.mp hps).2
    simp only [bne_iff_ne, ne_eq, decide_eq_true_eq] at this ⊢
    intro hc
    exact absurd (by simpa using hc) (by simpa using this)

theorem memDelete_memDelete (s : MemState) (k : String) :
    memDelete (memDelete s k) k = memDelete s k := by
  unfold memDelete
  rw [List.filter_filter]
  congr 1
  funext p
  exact Bool.and_self _

theorem memGetByEmail_of_mem {s : MemState} {p : String × User}
    (hd : EmailsNodup s) (hm : p ∈ s) :
    memGetByEmail s p.2.Email = some p.2 := by
  unfold memGetByEmail
  induction s with
  | nil => simp at hm
  | cons q rest ih =>
    rcases List.mem_cons.mp hm with rfl | hm2
    · simp
    · have hq : q.2.Email ≠ p.2.Email :=
        (List.pairwise_cons.mp hd).1 p hm2
      rw [List.find?_cons_of_neg _ (by simpa using hq)]
      exact ih (List.pairwise_cons.mp hd).2 hm2

/-- Sample records used to instantiate the hypotheses of the claim
theorems on concrete inputs. -/
def aliceUser : User :=
  { ID := "u1", Email := "alice@example.com", Name := "Alice", Role := "admin"
    Active := true, CreatedAt := 1, UpdatedAt := 1 }

/-- A one-user sample repository state. -/
def sampleState : MemState := [("u1", aliceUser)]

/-- C1: with the in-memory repository, `CreateUser` on an email for which
`GetByEmail` finds an existing record returns the 409 conflict error and
returns the repository state unchanged; on a fresh email it constructs
`NewUser` and persists it (the new record is stored under its id). -/
theorem CreateUser_conflict_409_state_unchanged (s : MemState)
    (req : UserCreateRequest) (newId : String) (now : Nat) :
    (∀ u, memGetByEmail s req.Email = some u →
      UserService.CreateUser InMemoryUserRepository s req newId now =
        (Except.error
          (NewAppError 409 "User with this email already exists" req.Email none), s)) ∧
    (memGetByEmail s req.Email = none →
      UserService.CreateUser InMemoryUserRepository s req newId now =
        (Except.ok (NewUser req.Email req.Name req.Role newId now).ToResponse,
          memInsert s newId (NewUser req.Email req.Name req.Role newId now)) ∧
      memGet (UserService.CreateUser InMemoryUserRepository s req newId now).2 newId =
        some (NewUser req.Email req.Name req.Role newId now)) := by
  constructor
  · intro u hu
    simp [UserService.CreateUser, InMemoryUserRepository, hu]
  · intro h
    have h1 : UserService.CreateUser InMemoryUserRepository s req newId now =
        (Except.ok (NewUser req.Email req.Name req.Role newId now).ToResponse,
          memInsert s newId (NewUser req.Email req.Name req.Role newId now)) := by
      simp [UserService.CreateUser, InMemoryUserRepository, h, NewUser]
    refine ⟨h1, ?_⟩
    rw [h1]
    exact memGet_memInsert_self s newId _

/-- Witness for C1 at concrete inputs: a duplicate-email create against
`sampleState` conflicts and leaves the state unchanged; a fresh-email
create persists the new record. -/
theorem CreateUser_conflict_409_state_unchanged_witness :
    UserService.CreateUser InMemoryUserRepository sampleState
        { Email := "alice@example.com", Name := "Bob", Role := "user" } "u2" 5 =
      (Except.error
        (NewAppError 409 "User with this email already exists" "alice@example.com" none),
        sampleState) ∧
    UserService.CreateUser InMemoryUserRepository sampleState
        { Email := "bob@example.com", Name := "Bob", Role := "user" } "u2" 5 =
      (Except.ok (NewUser "bob@example.com" "Bob" "user" "u2" 5).ToResponse,
        memInsert sampleState "u2" (NewUser "bob@example.com" "Bob" "user" "u2" 5)) := by
  constructor
  · exact (CreateUser_conflict_409_state_unchanged sampleState
      { Email := "alice@example.com", Name := "Bob", Role := "user" } "u2" 5).1
      aliceUser (by decide)
  · exact ((CreateUser_conflict_409_state_unchanged sampleState
      { Email := "bob@example.com", Name := "Bob", Role := "user" } "u2" 5).2
      (by decide)).1

/-- C5: with the in-memory repository, creating a user whose email is not
already present succeeds, and the returned record copies the request's
email, name and role, is active, and carries equal created-at and
updated-at stamps (both set to the creation instant). -/
theorem CreateUser_fresh_email_fields (s : MemState) (req : UserCreateRequest)
    (newId : String) (now : Nat)
    (h : memGetByEmail s req.Email = none) :
    ∃ resp : UserResponse,
      (UserService.CreateUser InMemoryUserRepository s req newId now).1 =
        Except.ok resp ∧
      resp.Email = req.Email ∧ resp.Name = req.Name ∧ resp.Role = req.Role ∧
      resp.Active = true ∧ resp.CreatedAt = now ∧ resp.UpdatedAt = now ∧
      resp.CreatedAt = resp.UpdatedAt := by
  refine ⟨(NewUser req.Email req.Name req.Role newId now).ToResponse, ?_,
    rfl, rfl, rfl, rfl, rfl, rfl, rfl⟩
  simp [UserService.CreateUser, InMemoryUserRepository, h, NewUser]

/-- Witness for C5 at a concrete fresh-email create. -/
theorem CreateUser_fresh_email_fields_witness :
    ∃ resp : UserResponse,
      (UserService.CreateUser InMemoryUserRepository sampleState
          { Email := "bob@example.com", Name := "Bob", Role := "user" } "u2" 5).1 =
        Except.ok resp ∧
      resp.Email = "bob@example.com" ∧ resp.Name = "Bob" ∧ resp.Role = "user" ∧
      resp.Active = true ∧ resp.CreatedAt = 5 ∧ resp.UpdatedAt = 5 ∧
      resp.CreatedAt = resp.UpdatedAt :=
  CreateUser_fresh_email_fields sampleState
    { Email := "bob@example.com", Name := "Bob", Role := "user" } "u2" 5 (by decide)

/-- C6: with the in-memory repository, deleting a stored user succeeds and
removes the record: the post-state no longer holds the id, a subsequent
`GetUser` returns the 404 not-found error, and a second `DeleteUser` on the
same id also returns the 404 not-found error. -/
theorem DeleteUser_removes_then_not_found (s : MemState) (u : User)
    (h : memGet s u.ID = some u) :
    UserService.DeleteUser InMemoryUserRepository s u.ID =
      (Except.ok (), memDelete s u.ID) ∧
    memGet (memDelete s u.ID) u.ID = none ∧
    UserService.GetUser InMemoryUserRepository (memDelete s u.ID) u.ID =
      (Except.error (NotFoundError "User" u.ID), memDelete s u.ID) ∧
    UserService.DeleteUser InMemoryUserRepository (memDelete s u.ID) u.ID =
      (Except.error (NotFoundError "User" u.ID), memDelete s u.ID) ∧
    (NotFoundError "User" u.ID).Code = 404 := by
  have hgone := memGet_memDelete_self s u.ID
  refine ⟨?_, hgone, ?_, ?_, rfl⟩
  · simp [UserService.DeleteUser, InMemoryUserRepository, h]
  · simp [UserService.GetUser, InMemoryUserRepository, hgone]
  · simp [UserService.DeleteUser, InMemoryUserRepository, hgone]

/-- Witness for C6: delete Alice from the sample state, then fetch and
delete again. -/
theorem DeleteUser_removes_then_not_found_witness :
    UserService.DeleteUser InMemoryUserRepository sampleState "u1" =
      (Except.ok (), memDelete sampleState "u1") ∧
    UserService.GetUser InMemoryUserRepository (memDelete sampleState "u1") "u1" =
      (Except.error (NotFoundError "User" "u1"), memDelete sampleState "u1") ∧
    UserService.DeleteUser InMemoryUserRepository (memDelete sampleState "u1") "u1" =
      (Except.error (NotFoundError "User" "u1"), memDelete sampleState "u1") := by
  have h := DeleteUser_removes_then_not_found sampleState aliceUser (by decide)
  exact ⟨h.1, h.2.2.1, h.2.2.2.1⟩

/-- C9: the in-memory repository's `Delete` returns no error on any state
and any id (present or absent), and deleting twice leaves the same state as
deleting once. -/
theorem InMemory_Delete_ok_idempotent (s : MemState) (id : String) :
    (InMemoryUserRepository.Delete s id).1 = Except.ok () ∧
    InMemoryUserRepository.Delete ((InMemoryUserRepository.Delete s id).2) id =
      (Except.ok (), (InMemoryUserRepository.Delete s id).2) := by
  refine ⟨rfl, ?_⟩
  show (Except.ok (), memDelete (memDelete s id) id) = _
  rw [memDelete_memDelete]
  rfl

/-- C10: the in-memory repository's `Create`, `Update` and `Delete` each
preserve the invariant that every stored binding's value carries the map
key as its `ID` field. -/
theorem InMemory_KeyMatches_invariant (s : MemState) (u : User) (id : String)
    (h : KeyMatches s) :
    KeyMatches ((InMemoryUserRepository.Create s u).2) ∧
    KeyMatches ((InMemoryUserRepository.Update s u).2) ∧
    KeyMatches ((InMemoryUserRepository.Delete s id).2) := by
  have hins : KeyMatches (memInsert s u.ID u) := by
    unfold KeyMatches memInsert
    split
    · intro p hp
      rcases List.mem_map.mp hp with ⟨q, hq, hqe⟩
      by_cases hqk : (q.1 == u.ID) = true
      · rw [if_pos hqk] at hqe
        subst hqe
        rfl
      · rw [if_neg hqk] at hqe
        subst hqe
        exact h q hq
    · intro p hp
      rcases List.mem_append.mp hp with hp1 | hp2
      · exact h p hp1
      · rcases List.mem_singleton.mp hp2 with rfl
        rfl
  refine ⟨hins, hins, ?_⟩
  intro p hp
  exact h p (List.mem_of_mem_filter hp)

/-- Witness for C10 on the sample state. -/
theorem InMemory_KeyMatches_invariant_witness :
    KeyMatches ((InMemoryUserRepository.Create sampleState
      (NewUser "bob@example.com" "Bob" "user" "u2" 5)).2) ∧
    KeyMatches ((InMemoryUserRepository.Update sampleState
      (NewUser "bob@example.com" "Bob" "user" "u2" 5)).2) ∧
    KeyMatches ((InMemoryUserRepository.Delete sampleState "u1").2) :=
  InMemory_KeyMatches_invariant sampleState
    (NewUser "bob@example.com" "Bob" "user" "u2" 5) "u1" (by decide)

theorem ceil_div_bounds (n ps : Int) (_hn : 0 ≤ n) (hps : 0 < ps) :
    ps * ((n + ps - 1) / ps) ≥ n ∧ ps * ((n + ps - 1) / ps) < n + ps := by
  have h1 := Int.ediv_add_emod (n + ps - 1) ps
  have h2 := Int.emod_nonneg (n + ps - 1) (by omega : ps ≠ 0)
  have h3 := Int.emod_lt_of_pos (n + ps - 1) hps
  generalize hm : ps * ((n + ps - 1) / ps) = m at h1 ⊢
  omega

/-- C2: with the in-memory repository, `ListUsers` replaces `page` by 1
when `page < 1` and `pageSize` by 10 when it falls outside [1,100], queries
the repository with `limit = pageSize` and `offset = (page-1)*pageSize`,
reports the clamped page and pageSize, and reports `TotalPages` equal to
the ceiling of `Total / PageSize` (characterized by the two bracketing
inequalities, which determine the ceiling uniquely). -/
theorem ListUsers_clamps_and_ceiling (s : MemState) (page pageSize : Int) :
    ∃ r : UserListResponse,
      UserService.ListUsers InMemoryUserRepository s page pageSize =
        (Except.ok r, s) ∧
      r.Page = (if page < 1 then 1 else page) ∧
      r.PageSize = (if pageSize < 1 ∨ pageSize > 100 then 10 else pageSize) ∧
      r.Users = (memList s r.PageSize ((r.Page - 1) * r.PageSize)).map User.ToResponse ∧
      r.Total = (s.length : Int) ∧
      r.PageSize * r.TotalPages ≥ r.Total ∧
      r.PageSize * r.TotalPages < r.Total + r.PageSize := by
  have hps : (0 : Int) < (if pageSize < 1 ∨ pageSize > 100 then 10 else pageSize) := by
    split
    · norm_num
    case isFalse h =>
      push_neg at h
      omega
  have hn : (0 : Int) ≤ (s.length : Int) := Int.natCast_nonneg _
  have hb := ceil_div_bounds (s.length : Int)
    (if pageSize < 1 ∨ pageSize > 100 then 10 else pageSize) hn hps
  exact ⟨_, rfl, rfl, rfl, rfl, rfl, hb.1, hb.2⟩

theorem UpdateUserRest_mem_eq (s : MemState) (req : UserUpdateRequest)
    (user : User) :
    UserService.UpdateUserRest InMemoryUserRepository s req user =
      (Except.ok (User.ToResponse
        { user with
            Name := req.Name.getD user.Name
            Role := req.Role.getD user.Role
            Active := req.Active.getD user.Active }),
        memInsert s user.ID
          { user with
              Name := req.Name.getD user.Name
              Role := req.Role.getD user.Role
              Active := req.Active.getD user.Active }) := by
  rcases req with ⟨oe, onm, orl, oac⟩
  cases onm <;> cases orl <;> cases oac <;>
    simp [UserService.UpdateUserRest, InMemoryUserRepository]

/-- C7: with the in-memory repository, updating a stored user with a
request that sets only the name leaves the record's email, role and
created-at unchanged, and the updated-at stamp after the call is ≥ the one
before (the in-memory variant keeps it equal, which satisfies the bound). -/
theorem UpdateUser_name_only_frame (s : MemState) (u : User) (n : String)
    (h : memGet s u.ID = some u) :
    UserService.UpdateUser InMemoryUserRepository s u.ID
        { Email := none, Name := some n, Role := none, Active := none } =
      (Except.ok ({ u with Name := n }).ToResponse,
        memInsert s u.ID { u with Name := n }) ∧
    memGet (memInsert s u.ID { u with Name := n }) u.ID =
      some { u with Name := n } ∧
    ({ u with Name := n }).Email = u.Email ∧
    ({ u with Name := n }).Role = u.Role ∧
    ({ u with Name := n }).CreatedAt = u.CreatedAt ∧
    ({ u with Name := n }).UpdatedAt ≥ u.UpdatedAt := by
  refine ⟨?_, memGet_memInsert_self s u.ID _, rfl, rfl, rfl, le_refl _⟩
  have hrest := UpdateUserRest_mem_eq s
    { Email := none, Name := some n, Role := none, Active := none } u
  simp only [Option.getD_some, Option.getD_none] at hrest
  simp only [UserService.UpdateUser, InMemoryUserRepository, h]
  exact hrest

/-- Witness for C7: rename Alice in the sample state. -/
theorem UpdateUser_name_only_frame_witness :
    UserService.UpdateUser InMemoryUserRepository sampleState "u1"
        { Email := none, Name := some "Alicia", Role := none, Active := none } =
      (Except.ok ({ aliceUser with Name := "Alicia" }).ToResponse,
        memInsert sampleState "u1" { aliceUser with Name := "Alicia" }) ∧
    ({ aliceUser with Name := "Alicia" }).Email = aliceUser.Email ∧
    ({ aliceUser with Name := "Alicia" }).Role = aliceUser.Role ∧
    ({ aliceUser with Name := "Alicia" }).CreatedAt = aliceUser.CreatedAt ∧
    ({ aliceUser with Name := "Alicia" }).UpdatedAt ≥ aliceUser.UpdatedAt := by
  have h := UpdateUser_name_only_frame sampleState aliceUser "Alicia" (by decide)
  exact ⟨h.1, h.2.2.1, h.2.2.2.1, h.2.2.2.2.1, h.2.2.2.2.2⟩

/-- C3: with the in-memory repository, on a state with pairwise-distinct
emails, updating a stored user `u` with a request carrying an email: if a
record owned by a different id has that email the call returns the 409
conflict error with the state untouched; if the email is `u`'s own current
email the call succeeds (no self-conflict) and applies exactly the fields
present in the request, leaving the absent ones (and the timestamps) at
their stored values. -/
theorem UpdateUser_email_conflict_excludes_self (s : MemState) (u : User)
    (req : UserUpdateRequest) (e : String)
    (hWF : EmailsNodup s) (hu : memGet s u.ID = some u) (he : req.Email = some e) :
    (∀ k v, (k, v) ∈ s → v.Email = e → v.ID ≠ u.ID →
      UserService.UpdateUser InMemoryUserRepository s u.ID req =
        (Except.error (NewAppError 409 "Email is already in use" e none), s)) ∧
    (e = u.Email →
      UserService.UpdateUser InMemoryUserRepository s u.ID req =
        (Except.ok (User.ToResponse
          { u with
              Email := e
              Name := req.Name.getD u.Name
              Role := req.Role.getD u.Role
              Active := req.Active.getD u.Active }),
          memInsert s u.ID
            { u with
                Email := e
                Name := req.Name.getD u.Name
                Role := req.Role.getD u.Role
                Active := req.Active.getD u.Active })) := by
  constructor
  · intro k v hmem hve hvid
    have hfound : memGetByEmail s e = some v := by
      have hx := memGetByEmail_of_mem hWF hmem
      rwa [hve] at hx
    simp [UserService.UpdateUser, InMemoryUserRepository, hu, he, hfound, hvid]
  · intro heq
    have hmemu : (u.ID, u) ∈ s := memGet_eq_some_mem hu
    have hfound : memGetByEmail s e = some u := by
      have hx := memGetByEmail_of_mem hWF hmemu
      rw [heq]
      exact hx
    have hrest := UpdateUserRest_mem_eq s req { u with Email := e }
    simp only [UserService.UpdateUser, InMemoryUserRepository, hu, he, hfound,
      Option.map_some', bne_self_eq_false, Option.getD_some, if_false,
      Bool.false_eq_true, if_neg, ite_false]
    exact hrest

/-- A second sample record with a distinct email, for the C3 witness. -/
def bobUser : User :=
  { ID := "u2", Email := "bob@example.com", Name := "Bob", Role := "user"
    Active := true, CreatedAt := 2, UpdatedAt := 2 }

/-- A two-user sample state with distinct emails. -/
def twoUserState : MemState := [("u1", aliceUser), ("u2", bobUser)]

/-- Witness for C3: updating Alice to Bob's email conflicts; updating Alice
to her own email succeeds and applies only the present field (the name). -/
theorem UpdateUser_email_conflict_excludes_self_witness :
    UserService.UpdateUser InMemoryUserRepository twoUserState "u1"
        { Email := some "bob@example.com", Name := none, Role := none, Active := none } =
      (Except.error (NewAppError 409 "Email is already in use" "bob@example.com" none),
        twoUserState) ∧
    UserService.UpdateUser InMemoryUserRepository twoUserState "u1"
        { Email := some "alice@example.com", Name := some "Alicia", Role := none, Active := none } =
      (Except.ok (User.ToResponse
        { aliceUser with Email := "alice@example.com", Name := "Alicia" }),
        memInsert twoUserState "u1"
          { aliceUser with Email := "alice@example.com", Name := "Alicia" }) := by
  constructor
  · exact (UpdateUser_email_conflict_excludes_self twoUserState aliceUser
      { Email := some "bob@example.com", Name := none, Role := none, Active := none }
      "bob@example.com" (by decide) (by decide) rfl).1 "u2" bobUser
      (by decide) rfl (by decide)
  · exact (UpdateUser_email_conflict_excludes_self twoUserState aliceUser
      { Email := some "alice@example.com", Name := some "Alicia", Role := none, Active := none }
      "alice@example.com" (by decide) (by decide) rfl).2 rfl

theorem UpdateUserRest_update_error {σ : Type} (R : UserRepository σ) (s : σ)
    (req : UserUpdateRequest) (user : User) (r : String)
    (hU : ∀ u', (R.Update s u').1 = Except.error r) :
    (UserService.UpdateUserRest R s req user).1 = Except.error ErrInternalServer := by
  rcases req with ⟨oe, onm, orl, oac⟩
  cases onm <;> cases orl <;> cases oac
  all_goals
    simp only [UserService.UpdateUserRest]
    split
    · rfl
    next val s2 heq => exact absurd (congrArg Prod.fst heq) (by simp [hU])

/-- C8: over any repository implementation, every repository-level failure
in `CreateUser`, `GetUser`, `ListUsers`, `UpdateUser` and `DeleteUser` is
returned to the caller as the fixed generic `ErrInternalServer`,
independently of the repository error `r`; and `ErrInternalServer` is the
constant 500 error with message "An unexpected error occurred", empty
detail and no wrapped cause, so the repository error text is not leaked. -/
theorem Service_repo_errors_become_internal :
    (∀ (σ : Type) (R : UserRepository σ) (s : σ) (req : UserCreateRequest)
        (newId : String) (now : Nat) (r : String),
      R.GetByEmail s req.Email = Except.error r →
      (UserService.CreateUser R s req newId now).1 = Except.error ErrInternalServer) ∧
    (∀ (σ : Type) (R : UserRepository σ) (s s2 : σ) (req : UserCreateRequest)
        (newId : String) (now : Nat) (r : String),
      R.GetByEmail s req.Email = Except.ok none →
      R.Create s (NewUser req.Email req.Name req.Role newId now) = (Except.error r, s2) →
      (UserService.CreateUser R s req newId now).1 = Except.error ErrInternalServer) ∧
    (∀ (σ : Type) (R : UserRepository σ) (s : σ) (id : String) (r : String),
      R.GetByID s id = Except.error r →
      (UserService.GetUser R s id).1 = Except.error ErrInternalServer) ∧
    (∀ (σ : Type) (R : UserRepository σ) (s : σ) (page pageSize : Int) (r : String),
      (∀ limit offset, R.List s limit offset = Except.error r) →
      (UserService.ListUsers R s page pageSize).1 = Except.error ErrInternalServer) ∧
    (∀ (σ : Type) (R : UserRepository σ) (s : σ) (page pageSize : Int)
        (us : List User) (r : String),
      (∀ limit offset, R.List s limit offset = Except.ok us) →
      R.Count s = Except.error r →
      (UserService.ListUsers R s page pageSize).1 = Except.error ErrInternalServer) ∧
    (∀ (σ : Type) (R : UserRepository σ) (s : σ) (id : String)
        (req : UserUpdateRequest) (r : String),
      R.GetByID s id = Except.error r →
      (UserService.UpdateUser R s id req).1 = Except.error ErrInternalServer) ∧
    (∀ (σ : Type) (R : UserRepository σ) (s : σ) (id e : String)
        (req : UserUpdateRequest) (user : User) (r : String),
      R.GetByID s id = Except.ok (some user) →
      req.Email = some e →
      R.GetByEmail s e = Except.error r →
      (UserService.UpdateUser R s id req).1 = Except.error ErrInternalServer) ∧
    (∀ (σ : Type) (R : UserRepository σ) (s : σ) (id : String)
        (req : UserUpdateRequest) (user : User) (r : String),
      R.GetByID s id = Except.ok (some user) →
      req.Email = none →
      (∀ u', (R.Update s u').1 = Except.error r) →
      (UserService.UpdateUser R s id req).1 = Except.error ErrInternalServer) ∧
    (∀ (σ : Type) (R : UserRepository σ) (s : σ) (id : String) (r : String),
      R.GetByID s id = Except.error r →
      (UserService.DeleteUser R s id).1 = Except.error ErrInternalServer) ∧
    (∀ (σ : Type) (R : UserRepository σ) (s s2 : σ) (id : String)
        (user : User) (r : String),
      R.GetByID s id = Except.ok (some user) →
      R.Delete s id = (Except.error r, s2) →
      (UserService.DeleteUser R s id).1 = Except.error ErrInternalServer) ∧
    (ErrInternalServer.Code = 500 ∧
      ErrInternalServer.Message = "An unexpected error occurred" ∧
      ErrInternalServer.Detail = "" ∧
      ErrInternalServer.Internal = none) := by
  refine ⟨?_, ?_, ?_, ?_, ?_, ?_, ?_, ?_, ?_, ?_, rfl, rfl, rfl, rfl⟩
  · intro σ R s req newId now r h
    simp [UserService.CreateUser, h]
  · intro σ R s s2 req newId now r h1 h2
    simp [UserService.CreateUser, h1, h2]
  · intro σ R s id r h
    simp [UserService.GetUser, h]
  · intro σ R s page pageSize r hL
    simp [UserService.ListUsers, hL]
  · intro σ R s page pageSize us r hL hC
    simp [UserService.ListUsers, hL, hC]
  · intro σ R s id req r h
    simp [UserService.UpdateUser, h]
  · intro σ R s id e req user r h1 h2 h3
    simp [UserService.UpdateUser, h1, h2, h3]
  · intro σ R s id req user r h1 h2 hU
    simp only [UserService.UpdateUser, h1, h2]
    exact UpdateUserRest_update_error R s req user r hU
  · intro σ R s id r h
    simp [UserService.DeleteUser, h]
  · intro σ R s s2 id user r h1 h2
    simp [UserService.DeleteUser, h1, h2]

/-- A repository whose every operation reports a storage failure, used to
exercise the service error paths at concrete inputs. -/
def failingRepo : UserRepository Unit :=
  { Create := fun _ _ => (Except.error "storage failure", ())
    GetByID := fun _ _ => Except.error "storage failure"
    GetByEmail := fun _ _ => Except.error "storage failure"
    Update := fun _ _ => (Except.error "storage failure", ())
    Delete := fun _ _ => (Except.error "storage failure", ())
    List := fun _ _ _ => Except.error "storage failure"
    Count := fun _ => Except.error "storage failure" }

/-- A repository whose reads succeed but whose writes and count fail. -/
def failingWriteRepo : UserRepository Unit :=
  { Create := fun _ _ => (Except.error "write failure", ())
    GetByID := fun _ _ => Except.ok (some aliceUser)
    GetByEmail := fun _ _ => Except.ok none
    Update := fun _ _ => (Except.error "write failure", ())
    Delete := fun _ _ => (Except.error "write failure", ())
    List := fun _ _ _ => Except.ok []
    Count := fun _ => Except.error "write failure" }

/-- A repository that finds records by id but fails the email lookup. -/
def failingEmailRepo : UserRepository Unit :=
  { Create := fun _ _ => (Except.ok (), ())
    GetByID := fun _ _ => Except.ok (some aliceUser)
    GetByEmail := fun _ _ => Except.error "lookup failure"
    Update := fun _ _ => (Except.ok (), ())
    Delete := fun _ _ => (Except.ok (), ())
    List := fun _ _ _ => Except.ok []
    Count := fun _ => Except.ok 0 }

/-- Witness for C8: each repository failure site, exercised on a concrete
failing repository, yields exactly `ErrInternalServer`. -/
theorem Service_repo_errors_become_internal_witness :
    (UserService.CreateUser failingRepo ()
      { Email := "bob@example.com", Name := "Bob", Role := "user" } "u2" 5).1 =
        Except.error ErrInternalServer ∧
    (UserService.CreateUser failingWriteRepo ()
      { Email := "bob@example.com", Name := "Bob", Role := "user" } "u2" 5).1 =
        Except.error ErrInternalServer ∧
    (UserService.GetUser failingRepo () "u1").1 = Except.error ErrInternalServer ∧
    (UserService.ListUsers failingRepo () 1 10).1 = Except.error ErrInternalServer ∧
    (UserService.ListUsers failingWriteRepo () 1 10).1 = Except.error ErrInternalServer ∧
    (UserService.UpdateUser failingRepo () "u1"
      { Email := none, Name := some "Alicia", Role := none, Active := none }).1 =
        Except.error ErrInternalServer ∧
    (UserService.UpdateUser failingEmailRepo () "u1"
      { Email := some "x@example.com", Name := none, Role := none, Active := none }).1 =
        Except.error ErrInternalServer ∧
    (UserService.UpdateUser failingWriteRepo () "u1"
      { Email := none, Name := some "Alicia", Role := none, Active := none }).1 =
        Except.error ErrInternalServer ∧
    (UserService.DeleteUser failingRepo () "u1").1 = Except.error ErrInternalServer ∧
    (UserService.DeleteUser failingWriteRepo () "u1").1 = Except.error ErrInternalServer := by
  have h := Service_repo_errors_become_internal
  refine ⟨?_, ?_, ?_, ?_, ?_, ?_, ?_, ?_, ?_, ?_⟩
  · exact h.1 Unit failingRepo ()
      { Email := "bob@example.com", Name := "Bob", Role := "user" } "u2" 5
      "storage failure" rfl
  · exact h.2.1 Unit failingWriteRepo () ()
      { Email := "bob@example.com", Name := "Bob", Role := "user" } "u2" 5
      "write failure" rfl rfl
  · exact h.2.2.1 Unit failingRepo () "u1" "storage failure" rfl
  · exact h.2.2.2.1 Unit failingRepo () 1 10 "storage failure" (fun _ _ => rfl)
  · exact h.2.2.2.2.1 Unit failingWriteRepo () 1 10 [] "write failure"
      (fun _ _ => rfl) rfl
  · exact h.2.2.2.2.2.1 Unit failingRepo () "u1"
      { Email := none, Name := some "Alicia", Role := none, Active := none }
      "storage failure" rfl
  · exact h.2.2.2.2.2.2.1 Unit failingEmailRepo () "u1" "x@example.com"
      { Email := some "x@example.com", Name := none, Role := none, Active := none }
      aliceUser "lookup failure" rfl rfl rfl
  · exact h.2.2.2.2.2.2.2.1 Unit failingWriteRepo () "u1"
      { Email := none, Name := some "Alicia", Role := none, Active := none }
      aliceUser "write failure" rfl rfl (fun _ => rfl)
  · exact h.2.2.2.2.2.2.2.2.1 Unit failingRepo () "u1" "storage failure" rfl
  · exact h.2.2.2.2.2.2.2.2.2.1 Unit failingWriteRepo () () "u1" aliceUser
      "write failure" rfl rfl

/-- Counterexample for C4: on the empty repository state no user with id
"123" exists, yet the handler wired to `GET /api/v1/users/{id}` responds
with status 200 (its hard-coded mock user), not 404. -/
theorem GetUser_handler_no_404_counterexample :
    memGet ([] : MemState) "123" = none ∧
    (Handlers.GetUser "123").1 = 200 ∧
    (Handlers.GetUser "123").1 ≠ 404 := by
  refine ⟨rfl, rfl, ?_⟩
  decide

/-- C4 (amended): for every request `GET /api/v1/users/{id}`, the HTTP
handler responds 200 with a mock JSON user whose id equals the path
parameter, regardless of whether any user with that id exists in any
repository state; it never responds 404. -/
theorem GetUser_handler_always_200_mock (id : String) :
    (Handlers.GetUser id).1 = 200 ∧
    (Handlers.GetUser id).2.ID = id ∧
    (Handlers.GetUser id).2.Email = "user@example.com" ∧
    (Handlers.GetUser id).2.Name = "Test User" ∧
    (Handlers.GetUser id).1 ≠ 404 := by
  refine ⟨rfl, rfl, rfl, rfl, ?_⟩
  show (200 : Nat) ≠ 404
  decide
